import Mathlib

/-!
Verification of the Brand-Infinity-Engine generation-orchestrator core.

This file gives a shallow embedding, in Lean 4, of the components of the
repository that the verified properties talk about:

* the `KnowledgeStore` versioned document store (optimistic-locking `write`,
  `delete`, path validation) — from the knowledge-store source file;
* the `CircuitBreaker` resilience primitive — from `src/utils/circuit_breaker.ts`;
* the `BaseAgent.runAgentLoop` bounded tool-calling loop — from the agent source;
* `Orchestrator.validatePlanCoverage` and the failure path of `Orchestrator.run`;
* the n8n webhook callback handler — from `src/app/api/v1/callbacks/n8n/route.ts`;
* the `ResponseHandler` pending-question rendezvous.

Maps (`Map<string, T>`) are embedded as insertion-ordered association lists,
JavaScript promises/timers as explicit event traces, and the event stream as an
append-only list of emitted events.  Side effects against external systems
(database writes, event logging, orchestrator resumption) are recorded in
explicit effect records.  The SHA-256 content hash is modelled as an abstract
injective encoding (the content itself); no verified property depends on the
hash value.  Subscription callbacks are omitted; no verified property mentions
them.
-/

/-! ## Knowledge Store data model -/

/-- A stored document, mirroring the `VersionedDocument` interface. -/
structure VersionedDocument where
  path : String
  content : String
  version : Nat
  createdAt : Nat
  updatedAt : Nat
  createdBy : String
  updatedBy : String
  contentHash : String
deriving DecidableEq

/-- Event types emitted by the store (the subset of `EventType` the store uses). -/
inductive StoreEventType where
  | KNOWLEDGE_WRITTEN
  | KNOWLEDGE_UPDATED
  | KNOWLEDGE_DELETED
  | KNOWLEDGE_CONFLICT
deriving DecidableEq

/-- An emitted store event with its payload fields. -/
structure StoreEvent where
  type : StoreEventType
  path : String
  version : Option Nat := none
  previousVersion : Option Nat := none
  currentVersion : Option Nat := none
  attemptedVersion : Option Nat := none
  agent : String
deriving DecidableEq

/-- Error codes of `WriteResult.error.code`. -/
inductive StoreErrorCode where
  | INVALID_PATH
  | CONTENT_TOO_LARGE
  | VERSION_CONFLICT
deriving DecidableEq

/-- Result record returned by `KnowledgeStore.write`.  The TypeScript failure
results carry `version: -1` for path/size failures, hence `version : Int`. -/
structure WriteResult where
  success : Bool
  path : String
  version : Int
  previousVersion : Option Nat := none
  errorCode : Option StoreErrorCode := none
  errorCurrentVersion : Option Nat := none
  errorExpectedVersion : Option Nat := none
deriving DecidableEq

/-- The store state: `documents` embeds the `Map<string, VersionedDocument>`
as an insertion-ordered association list; `events` is the append-only log of
events emitted on the store's event stream. -/
structure KnowledgeStore where
  documents : List (String × VersionedDocument)
  sessionId : String
  currentAgent : String
  maxDocumentSize : Nat
  events : List StoreEvent
deriving DecidableEq

/-- `Map.get`. -/
def lookupDoc : List (String × VersionedDocument) → String → Option VersionedDocument
  | [], _ => none
  | (k, v) :: rest, p => if k = p then some v else lookupDoc rest p

/-- `Map.set`: replace in place if the key exists, append otherwise. -/
def setDoc : List (String × VersionedDocument) → String → VersionedDocument →
    List (String × VersionedDocument)
  | [], p, d => [(p, d)]
  | (k, v) :: rest, p, d => if k = p then (k, d) :: rest else (k, v) :: setDoc rest p d

/-- `Map.delete` (the removal part; existence is checked via `lookupDoc`). -/
def eraseDoc : List (String × VersionedDocument) → String → List (String × VersionedDocument)
  | [], _ => []
  | (k, v) :: rest, p => if k = p then rest else (k, v) :: eraseDoc rest p

/-- Characters admitted by the path regex `/^\/[a-zA-Z0-9\/_-]+$/`. -/
def isValidPathChar (c : Char) : Bool :=
  c.isAlpha || c.isDigit || c = '/' || c = '_' || c = '-'

/-- `KnowledgeStore.isValidPath`: the regex `/^\/[a-zA-Z0-9\/_-]+$/` — a leading
slash followed by one or more characters from the class. -/
def isValidPath (path : String) : Bool :=
  match path.toList with
  | [] => false
  | c :: rest => c = '/' && !rest.isEmpty && rest.all isValidPathChar

/-- The current version at a path: `existing?.version ?? 0`. -/
def KnowledgeStore.versionAt (s : KnowledgeStore) (path : String) : Nat :=
  match lookupDoc s.documents path with
  | some d => d.version
  | none => 0

/-- The success branch of `write`, shared by the `expectedVersion`-present and
`expectedVersion`-absent paths of the TypeScript code. -/
def KnowledgeStore.commitWrite (s : KnowledgeStore) (path content : String) (now : Nat) :
    WriteResult × KnowledgeStore :=
  let existing := lookupDoc s.documents path
  let currentVersion := s.versionAt path
  let newVersion := currentVersion + 1
  let doc : VersionedDocument :=
    { path := path
      content := content
      version := newVersion
      createdAt := match existing with | some d => d.createdAt | none => now
      updatedAt := now
      createdBy := match existing with | some d => d.createdBy | none => s.currentAgent
      updatedBy := s.currentAgent
      contentHash := content }
  let eventType := match existing with
    | some _ => StoreEventType.KNOWLEDGE_UPDATED
    | none => StoreEventType.KNOWLEDGE_WRITTEN
  let ev : StoreEvent :=
    { type := eventType
      path := path
      version := some newVersion
      previousVersion := existing.map VersionedDocument.version
      agent := s.currentAgent }
  ({ success := true
     path := path
     version := (newVersion : Int)
     previousVersion := existing.map VersionedDocument.version },
   { s with documents := setDoc s.documents path doc, events := s.events ++ [ev] })

/-- `KnowledgeStore.write(path, content, expectedVersion?)`: path validation,
size ceiling, optimistic-locking check, then the committed write. -/
def KnowledgeStore.write (s : KnowledgeStore) (path content : String)
    (expectedVersion : Option Nat) (now : Nat) : WriteResult × KnowledgeStore :=
  if !isValidPath path then
    ({ success := false, path := path, version := -1,
       errorCode := some StoreErrorCode.INVALID_PATH }, s)
  else if content.length > s.maxDocumentSize then
    ({ success := false, path := path, version := -1,
       errorCode := some StoreErrorCode.CONTENT_TOO_LARGE }, s)
  else
    let currentVersion := s.versionAt path
    match expectedVersion with
    | some expected =>
      if currentVersion ≠ expected then
        ({ success := false
           path := path
           version := (currentVersion : Int)
           errorCode := some StoreErrorCode.VERSION_CONFLICT
           errorCurrentVersion := some currentVersion
           errorExpectedVersion := some expected },
         { s with events := s.events ++
            [{ type := StoreEventType.KNOWLEDGE_CONFLICT
               path := path
               currentVersion := some currentVersion
               attemptedVersion := some expected
               agent := s.currentAgent }] })
      else s.commitWrite path content now
    | none => s.commitWrite path content now

/-- `KnowledgeStore.delete(path)`. -/
def KnowledgeStore.delete (s : KnowledgeStore) (path : String) : Bool × KnowledgeStore :=
  let existed := (lookupDoc s.documents path).isSome
  let s1 : KnowledgeStore := { s with documents := eraseDoc s.documents path }
  if existed then
    (true,
     { s1 with events := s1.events ++
        [{ type := StoreEventType.KNOWLEDGE_DELETED, path := path, agent := s.currentAgent }] })
  else (false, s1)

/-- A fresh store as built by the constructor with the default 10 MiB size
ceiling and initial agent `zeus`. -/
def emptyStore : KnowledgeStore :=
  { documents := []
    sessionId := "session"
    currentAgent := "zeus"
    maxDocumentSize := 10 * 1024 * 1024
    events := [] }

/-- The claim's reading of the path check, following the spec's words:
a hierarchical key consisting of non-empty segments only (a leading slash and
no empty segment thereafter).  Stated for comparison with the code's
`isValidPath`. -/
def specHierarchicalPath (path : String) : Bool :=
  match path.toList.splitOn '/' with
  | [] :: segs => !segs.isEmpty && segs.all (fun seg => !seg.isEmpty)
  | _ => false

/-! ## Sequences of store operations -/

/-- The arguments of one `write` call. -/
structure WriteOp where
  path : String
  content : String
  expectedVersion : Option Nat
  now : Nat
deriving DecidableEq

/-- Run a sequence of `write` calls, threading the store state. -/
def runWrites : KnowledgeStore → List WriteOp → KnowledgeStore
  | s, [] => s
  | s, op :: rest => runWrites (s.write op.path op.content op.expectedVersion op.now).2 rest

/-- The versions returned by the successful writes to path `p`, in call order. -/
def successVersionsAt : KnowledgeStore → List WriteOp → String → List Int
  | _, [], _ => []
  | s, op :: rest, p =>
    let r := (s.write op.path op.content op.expectedVersion op.now).1
    let tail := successVersionsAt (s.write op.path op.content op.expectedVersion op.now).2 rest p
    if op.path = p ∧ r.success = true then r.version :: tail else tail

/-! ## Circuit breaker (`src/utils/circuit_breaker.ts`)

The Redis persistence (`persistStatus`/`loadStatus`) is wrapped in
ignore-errors boundaries in the source and, per the spec, the breaker must
function correctly purely in memory; it is embedded as the in-memory state
only.  The wrapped function `fn` is embedded by its outcome: `execute` takes
the current clock value and whether `fn` would succeed, and reports whether
`fn` was actually invoked and in which breaker state. -/

inductive CircuitState where
  | CLOSED
  | OPEN
  | HALF_OPEN
deriving DecidableEq

structure CircuitBreaker where
  threshold : Nat
  resetTimeout : Nat
  state : CircuitState
  failures : Nat
  lastFailure : Option Nat
deriving DecidableEq

/-- Outcome of one `execute` call: the wrapped function's result propagated,
or the immediate `Circuit breaker is OPEN` error. -/
inductive ExecOutcome where
  | result (success : Bool)
  | circuitOpenError
deriving DecidableEq

/-- Full observation of one `execute` call. -/
structure ExecObservation where
  outcome : ExecOutcome
  breaker : CircuitBreaker
  invoked : Bool
  invokedState : Option CircuitState
deriving DecidableEq

/-- The `try { await fn() } catch` body of `execute`: `fn` runs, then the
success or failure bookkeeping updates the breaker. -/
def CircuitBreaker.runWrapped (cb : CircuitBreaker) (now : Nat) (fnSucceeds : Bool) :
    ExecObservation :=
  if fnSucceeds then
    { outcome := ExecOutcome.result true
      breaker := { cb with failures := 0, lastFailure := none, state := CircuitState.CLOSED }
      invoked := true
      invokedState := some cb.state }
  else
    let failures := cb.failures + 1
    let st :=
      if cb.state = CircuitState.HALF_OPEN then CircuitState.OPEN
      else if failures ≥ cb.threshold then CircuitState.OPEN
      else cb.state
    { outcome := ExecOutcome.result false
      breaker := { cb with failures := failures, lastFailure := some now, state := st }
      invoked := true
      invokedState := some cb.state }

/-- `CircuitBreaker.execute`. -/
def CircuitBreaker.execute (cb : CircuitBreaker) (now : Nat) (fnSucceeds : Bool) :
    ExecObservation :=
  match cb.state with
  | CircuitState.OPEN =>
    let last := cb.lastFailure.getD 0
    if now - last > cb.resetTimeout then
      CircuitBreaker.runWrapped { cb with state := CircuitState.HALF_OPEN } now fnSucceeds
    else
      { outcome := ExecOutcome.circuitOpenError
        breaker := cb
        invoked := false
        invokedState := none }
  | _ => CircuitBreaker.runWrapped cb now fnSucceeds

/-- A freshly constructed breaker. -/
def mkBreaker (threshold resetTimeout : Nat) : CircuitBreaker :=
  { threshold := threshold
    resetTimeout := resetTimeout
    state := CircuitState.CLOSED
    failures := 0
    lastFailure := none }

/-- Run a consecutive sequence of failing `execute` calls at the given clock
values, keeping only the breaker state. -/
def execFailures (cb : CircuitBreaker) (times : List Nat) : CircuitBreaker :=
  match times with
  | [] => cb
  | t :: rest => execFailures (cb.execute t false).breaker rest

/-! ## Base agent tool-calling loop (`BaseAgent.runAgentLoop`)

The language model is embedded as a function from the iteration index to the
response returned by `callLLM` on that iteration; tool execution is embedded
as a function from tool name and input to the router's `ToolResult`. -/

inductive StopReason where
  | endTurn
  | toolUse
  | maxTokens
  | other
deriving DecidableEq

/-- A content block of a model response. -/
inductive ContentBlock where
  | text (t : String)
  | toolUseBlock (id name input : String)
deriving DecidableEq

structure LLMResponse where
  content : List ContentBlock
  stopReason : StopReason
deriving DecidableEq

structure ToolResult where
  success : Bool
  data : String
deriving DecidableEq

/-- A transcript message block: either a block echoed from the assistant
response or a `tool_result` block. -/
inductive MsgBlock where
  | assistantBlock (b : ContentBlock)
  | toolResultBlock (id : String) (content : String) (isError : Bool)
deriving DecidableEq

structure AgentMessage where
  role : String
  content : List MsgBlock
deriving DecidableEq

inductive LoopResult where
  | done (messages : List AgentMessage) (finalResponse : String)
  | agentLoopDetected
deriving DecidableEq

/-- The text concatenated from the text blocks of a response. -/
def responseText (blocks : List ContentBlock) : String :=
  blocks.foldl
    (fun acc b => match b with | ContentBlock.text t => acc ++ t | _ => acc) ""

/-- Processing of one response block: a text block adds nothing, a `tool_use`
block is dispatched through the tool router and appends its `tool_result`. -/
def toolResultStep (execTool : String → String → ToolResult) (acc : List MsgBlock)
    (b : ContentBlock) : List MsgBlock :=
  match b with
  | ContentBlock.text _ => acc
  | ContentBlock.toolUseBlock id name input =>
    let r := execTool name input
    acc ++ [MsgBlock.toolResultBlock id r.data (!r.success)]

/-- The `tool_result` blocks produced by dispatching every `tool_use` block. -/
def toolResultBlocks (execTool : String → String → ToolResult) (blocks : List ContentBlock) :
    List MsgBlock :=
  blocks.foldl (toolResultStep execTool) []

/-- One `while` loop of `runAgentLoop`, with `fuel` the number of remaining
iterations (`maxIterations - iterations`); the result is paired with the total
number of model calls made. -/
def runLoopAux (execTool : String → String → ToolResult) (responses : Nat → LLMResponse)
    (messages : List AgentMessage) (iter : Nat) (fuel : Nat) (calls : Nat) :
    LoopResult × Nat :=
  match fuel with
  | 0 => (LoopResult.agentLoopDetected, calls)
  | fuel' + 1 =>
    let response := responses iter
    let calls' := calls + 1
    let assistantContent := response.content
    let toolResults := toolResultBlocks execTool response.content
    let textResponse := responseText response.content
    let messages' := messages ++
      [{ role := "assistant", content := assistantContent.map MsgBlock.assistantBlock }]
    if !toolResults.isEmpty then
      runLoopAux execTool responses
        (messages' ++ [{ role := "user", content := toolResults }]) (iter + 1) fuel' calls'
    else if response.stopReason = StopReason.endTurn then
      (LoopResult.done messages' textResponse, calls')
    else
      runLoopAux execTool responses messages' (iter + 1) fuel' calls'

/-- The hard iteration ceiling of `runAgentLoop`. -/
def maxIterations : Nat := 50

/-- `BaseAgent.runAgentLoop`. -/
def runAgentLoop (execTool : String → String → ToolResult) (responses : Nat → LLMResponse)
    (initialMessages : List AgentMessage) : LoopResult × Nat :=
  runLoopAux execTool responses initialMessages 0 maxIterations 0

/-- Whether a content block is a `tool_use` block. -/
def isToolUseBlock : ContentBlock → Bool
  | ContentBlock.toolUseBlock _ _ _ => true
  | _ => false

/-- Whether a response contains at least one `tool_use` block. -/
def hasToolUse (r : LLMResponse) : Bool :=
  r.content.any isToolUseBlock

/-! ## Plan-coverage validation (`Orchestrator.validatePlanCoverage`)

The JSON retrieval and parsing layer is outside the algorithm; the check is
embedded on the parsed requirements and plan documents (the code past the
`JSON.parse` calls). -/

structure Requirement where
  id : String
deriving DecidableEq

structure RequirementsDoc where
  explicit : List Requirement
  implicit : List Requirement
deriving DecidableEq

structure PlanTask where
  coversRequirements : List String
deriving DecidableEq

structure PlanDoc where
  tasks : List PlanTask
deriving DecidableEq

structure CoverageResult where
  isComplete : Bool
  percentage : Int
  gaps : List String
deriving DecidableEq

/-- JavaScript `Math.round` on the (rational) values arising here:
round half away from zero is round half up for non-negative inputs. -/
def jsRound (q : ℚ) : Int := ⌊q + 1 / 2⌋

/-- The ids of all requirements, explicit then implicit, in document order. -/
def reqIds (reqs : RequirementsDoc) : List String :=
  (reqs.explicit ++ reqs.implicit).map Requirement.id

/-- `Set.add` on the insertion-ordered list embedding of `Set<string>`:
append the element if it is not already present. -/
def insertUnique (a : List String) (r : String) : List String :=
  if r ∈ a then a else a ++ [r]

/-- The `coveredReqs` set: every requirement id referenced by any task,
deduplicated in first-insertion order (`Set<string>` semantics). -/
def collectCovered (tasks : List PlanTask) : List String :=
  tasks.foldl (fun acc task => task.coversRequirements.foldl insertUnique acc) []

/-- `Orchestrator.validatePlanCoverage`, on parsed documents. -/
def validatePlanCoverage (reqs : RequirementsDoc) (plan : PlanDoc) : CoverageResult :=
  let allReqs := reqs.explicit ++ reqs.implicit
  let covered := collectCovered plan.tasks
  let gaps := (allReqs.filter (fun r => !decide (r.id ∈ covered))).map Requirement.id
  let percentage : ℚ :=
    if allReqs.length > 0 then ((covered.length : ℚ) / (allReqs.length : ℚ)) * 100 else 100
  { isComplete := gaps.isEmpty
    percentage := jsRound percentage
    gaps := gaps }

/-! ## n8n webhook callback (`src/app/api/v1/callbacks/n8n/route.ts`)

The HMAC signature comparison is embedded abstractly as a boolean (valid or
not); the Supabase task table is an explicit list of rows; every external side
effect (task update, provider-metadata insert, event log, orchestrator resume)
is recorded in an effects record, initially empty. -/

structure TaskRow where
  id : String
  request_id : String
  status : String
  task_name : String
  assigned_to : String
deriving DecidableEq

structure N8nPayload where
  requestId : String
  taskId : String
  executionId : String
  workflowId : Option String
  status : String
  resultOutputUrl : Option String
  errorCode : Option String
  errorMessage : Option String
deriving DecidableEq

structure CallbackEffects where
  taskUpdates : List (String × String)
  metadataInserts : List (String × String)
  taskCompletedLogs : Nat
  taskFailedLogs : Nat
  providerCallbackLogs : Nat
  orchestratorResumes : List String
deriving DecidableEq

structure ApiResponse where
  httpStatus : Nat
  success : Bool
deriving DecidableEq

/-- The state before any side effect has been performed. -/
def noEffects : CallbackEffects :=
  { taskUpdates := []
    metadataInserts := []
    taskCompletedLogs := 0
    taskFailedLogs := 0
    providerCallbackLogs := 0
    orchestratorResumes := [] }

/-- The `.eq('id', taskId).eq('request_id', requestId).single()` lookup. -/
def findTask (db : List TaskRow) (taskId requestId : String) : Option TaskRow :=
  db.find? (fun t => t.id == taskId && t.request_id == requestId)

/-- The `POST` handler of the n8n callback route. -/
def n8nCallbackPOST (secretConfigured signaturePresent signatureValid : Bool)
    (payload : N8nPayload) (db : List TaskRow) : ApiResponse × CallbackEffects :=
  if !secretConfigured then ({ httpStatus := 500, success := false }, noEffects)
  else if !signaturePresent then ({ httpStatus := 401, success := false }, noEffects)
  else if !signatureValid then ({ httpStatus := 401, success := false }, noEffects)
  else if payload.requestId == "" || payload.taskId == "" || payload.status == "" then
    ({ httpStatus := 400, success := false }, noEffects)
  else
    match findTask db payload.taskId payload.requestId with
    | none => ({ httpStatus := 404, success := false }, noEffects)
    | some task =>
      if task.status != "in_progress" then
        ({ httpStatus := 200, success := true }, noEffects)
      else if payload.status == "success" then
        let e1 :=
          if payload.executionId != "" then
            { noEffects with metadataInserts := [(payload.taskId, payload.executionId)] }
          else noEffects
        ({ httpStatus := 200, success := true },
         { e1 with taskUpdates := [(payload.taskId, "completed")]
                   taskCompletedLogs := 1
                   providerCallbackLogs := 1
                   orchestratorResumes := [payload.requestId] })
      else
        ({ httpStatus := 200, success := true },
         { noEffects with taskUpdates := [(payload.taskId, "failed")]
                          taskFailedLogs := 1
                          providerCallbackLogs := 1
                          orchestratorResumes := [payload.requestId] })

/-! ## Response handler rendezvous (`ResponseHandler`)

One pending question (one `sessionId:questionId` key) is modelled as a state
holding whether the map entry is present, whether the `setTimeout` timer is
still armed (not yet fired and not cleared), and the list of values with which
the waiting promise has been resolved.  JavaScript's single-threaded event
loop runs each handler atomically, so an execution is a sequence of atomic
events: the timer firing, or a `submitResponse` call.  `resolve` always
receives a `UserResponse` value — the promise is never rejected — which the
embedding reflects by `resolutions` being a list of plain values. -/

structure UserResponse where
  questionId : String
  response : String
  selectedOptionId : Option String
  timedOut : Bool
  timestamp : Nat
deriving DecidableEq

structure RHState where
  pendingPresent : Bool
  timerArmed : Bool
  resolutions : List UserResponse
deriving DecidableEq

/-- The state just after `waitForResponse` registered the pending question and
armed the timer. -/
def rhInit : RHState :=
  { pendingPresent := true, timerArmed := true, resolutions := [] }

inductive RHEvent where
  | timerFire (now : Nat)
  | submit (response : String) (selectedOptionId : Option String) (now : Nat)
deriving DecidableEq

/-- One atomic event.  The timer callback re-checks the map and only resolves
if the entry is still present; `submitResponse` clears the timer, removes the
entry and resolves with the submitted response. -/
def rhStep (questionId : String) (s : RHState) (e : RHEvent) : RHState :=
  match e with
  | RHEvent.timerFire now =>
    if s.timerArmed then
      if s.pendingPresent then
        { pendingPresent := false
          timerArmed := false
          resolutions := s.resolutions ++
            [{ questionId := questionId, response := "", selectedOptionId := none,
               timedOut := true, timestamp := now }] }
      else { s with timerArmed := false }
    else s
  | RHEvent.submit response selectedOptionId now =>
    if s.pendingPresent then
      { pendingPresent := false
        timerArmed := false
        resolutions := s.resolutions ++
          [{ questionId := questionId, response := response,
             selectedOptionId := selectedOptionId, timedOut := false, timestamp := now }] }
    else s

/-- Run an event trace from the registered-question state. -/
def rhRun (questionId : String) (events : List RHEvent) : RHState :=
  events.foldl (rhStep questionId) rhInit

/-! ## Orchestrator failure path (`Orchestrator.run`)

The `try` body of `run` is the sequence of agent phases; each phase calls an
external language-model-driven agent, so the body is embedded as a function
from the orchestrator-visible state to the state at exit together with the
error message if a phase threw.  The catch block is embedded from the source.

Modelled from the spec: the `StateMachine` class (imported from
`./state-machine`) is not among the provided sources; per the spec (§4.4) it
tracks the current phase and `transition(phase, reason)` moves to the given
phase, so it is embedded as a `phase` field set by `transitionTo`. -/

inductive OrchEventType where
  | GENERATION_STARTED
  | PHASE_STARTED
  | PHASE_COMPLETED
  | GENERATION_COMPLETED
  | GENERATION_FAILED
deriving DecidableEq

structure OrchState where
  phase : String
  events : List OrchEventType
  sandboxFiles : List (String × String)
  tokensUsed : Nat
deriving DecidableEq

/-- Modelled from the spec: `StateMachine.transition` sets the current phase. -/
def transitionTo (s : OrchState) (phase : String) : OrchState :=
  { s with phase := phase }

structure GenerationResult where
  success : Bool
  files : List (String × String)
  filesCount : Nat
  tokensUsed : Nat
  error : Option String
  summary : String
deriving DecidableEq

/-- `Orchestrator.run`: emit the start event, run the phase sequence, and on
success transition to `complete` / on a thrown error transition to `failed`,
emit the terminal event, and return the result built from the sandbox files
and budget accumulated so far. -/
def orchestratorRun (tryBody : OrchState → OrchState × Option String) (s0 : OrchState) :
    GenerationResult × OrchState :=
  let s1 : OrchState := { s0 with events := s0.events ++ [OrchEventType.GENERATION_STARTED] }
  match tryBody s1 with
  | (s2, none) =>
    let s3 := transitionTo s2 "complete"
    let s4 : OrchState := { s3 with events := s3.events ++ [OrchEventType.GENERATION_COMPLETED] }
    ({ success := true
       files := s3.sandboxFiles
       filesCount := s3.sandboxFiles.length
       tokensUsed := s3.tokensUsed
       error := none
       summary := "Generation completed successfully" }, s4)
  | (s2, some msg) =>
    let s3 := transitionTo s2 "failed"
    let s4 : OrchState := { s3 with events := s3.events ++ [OrchEventType.GENERATION_FAILED] }
    ({ success := false
       files := s4.sandboxFiles
       filesCount := s4.sandboxFiles.length
       tokensUsed := s4.tokensUsed
       error := some msg
       summary := "Generation failed" }, s4)

/-! ## Knowledge Store lemmas -/

theorem lookupDoc_setDoc_self (docs : List (String × VersionedDocument)) (p : String)
    (d : VersionedDocument) : lookupDoc (setDoc docs p d) p = some d := by
  induction docs with
  | nil => simp [setDoc, lookupDoc]
  | cons kv rest ih =>
    obtain ⟨k, v⟩ := kv
    by_cases h : k = p <;> simp [setDoc, lookupDoc, h, ih]

theorem lookupDoc_setDoc_ne (docs : List (String × VersionedDocument)) (p q : String)
    (d : VersionedDocument) (h : q ≠ p) :
    lookupDoc (setDoc docs p d) q = lookupDoc docs q := by
  induction docs with
  | nil => simp [setDoc, lookupDoc, Ne.symm h]
  | cons kv rest ih =>
    obtain ⟨k, v⟩ := kv
    by_cases hk : k = p
    · subst hk
      simp [setDoc, lookupDoc, Ne.symm h]
    · simp [setDoc, lookupDoc, hk, ih]

/-- On a successful write the returned version and the stored version both
advance to `versionAt + 1`; on a failed write the document map is untouched. -/
theorem write_step (s : KnowledgeStore) (path content : String) (ev : Option Nat) (now : Nat) :
    ((s.write path content ev now).1.success = true →
      (s.write path content ev now).1.version = (s.versionAt path : Int) + 1 ∧
      (s.write path content ev now).2.versionAt path = s.versionAt path + 1) ∧
    ((s.write path content ev now).1.success = false →
      (s.write path content ev now).2.documents = s.documents) := by
  by_cases hv : isValidPath path
  · by_cases hl : content.length > s.maxDocumentSize
    · simp [KnowledgeStore.write, hv, hl]
    · have hcommit :
          (s.commitWrite path content now).1.success = true ∧
          (s.commitWrite path content now).1.version = (s.versionAt path : Int) + 1 ∧
          (s.commitWrite path content now).2.versionAt path = s.versionAt path + 1 := by
        refine ⟨rfl, rfl, ?_⟩
        simp [KnowledgeStore.commitWrite, KnowledgeStore.versionAt, lookupDoc_setDoc_self]
      match hev : ev with
      | none => simp [KnowledgeStore.write, hv, hl, hcommit.1, hcommit.2.1, hcommit.2.2]
      | some expected =>
        by_cases hconf : s.versionAt path ≠ expected
        · simp [KnowledgeStore.write, hv, hl, hconf]
        · simp [KnowledgeStore.write, hv, hl, hconf, hcommit.1, hcommit.2.1, hcommit.2.2]
  · simp [KnowledgeStore.write, hv]

/-- A write at one path leaves the stored version at every other path alone. -/
theorem write_preserves_other (s : KnowledgeStore) (path content : String) (ev : Option Nat)
    (now : Nat) (q : String) (h : q ≠ path) :
    (s.write path content ev now).2.versionAt q = s.versionAt q := by
  by_cases hv : isValidPath path
  · by_cases hl : content.length > s.maxDocumentSize
    · simp [KnowledgeStore.write, hv, hl]
    · have hcommit : (s.commitWrite path content now).2.versionAt q = s.versionAt q := by
        simp [KnowledgeStore.commitWrite, KnowledgeStore.versionAt,
          lookupDoc_setDoc_ne _ _ _ _ h]
      match hev : ev with
      | none => simpa [KnowledgeStore.write, hv, hl] using hcommit
      | some expected =>
        by_cases hconf : s.versionAt path ≠ expected
        · have hdocs : (s.write path content (some expected) now).2.documents = s.documents := by
            simp [KnowledgeStore.write, hv, hl, hconf]
          simp [KnowledgeStore.versionAt, hdocs]
        · simpa [KnowledgeStore.write, hv, hl, hconf] using hcommit
  · simp [KnowledgeStore.write, hv]

/-! ## Claim C1 -/

/-- Claim C1 counterexample: the claim quantifies over every path, but for a
path failing the structural check (here `"x"`) with a mismatched supplied
`expectedVersion` (1, current version 0), the write returns error code
`INVALID_PATH`, not `VERSION_CONFLICT`: path validation runs before the
optimistic-locking check. -/
theorem write_stale_invalid_path_counterexample :
    (1 : Nat) ≠ emptyStore.versionAt "x" ∧
    (emptyStore.write "x" "c" (some 1) 0).1.success = false ∧
    (emptyStore.write "x" "c" (some 1) 0).1.errorCode = some StoreErrorCode.INVALID_PATH ∧
    ¬ (emptyStore.write "x" "c" (some 1) 0).1.errorCode = some StoreErrorCode.VERSION_CONFLICT := by
  decide

/-- Claim C1 (amended): for every valid path and content within the size
ceiling, a supplied `expectedVersion` differing from the document's current
version (0 when no document exists) leaves the document map unchanged and
returns an unsuccessful result with error code `VERSION_CONFLICT` carrying the
true current version and the supplied expected version. -/
theorem write_stale_version_conflict (s : KnowledgeStore) (path content : String)
    (expected now : Nat)
    (hpath : isValidPath path = true)
    (hsize : content.length ≤ s.maxDocumentSize)
    (hexp : expected ≠ s.versionAt path) :
    (s.write path content (some expected) now).2.documents = s.documents ∧
    (s.write path content (some expected) now).1.success = false ∧
    (s.write path content (some expected) now).1.errorCode = some StoreErrorCode.VERSION_CONFLICT ∧
    (s.write path content (some expected) now).1.errorCurrentVersion = some (s.versionAt path) ∧
    (s.write path content (some expected) now).1.errorExpectedVersion = some expected := by
  have hl : ¬ content.length > s.maxDocumentSize := by omega
  have hconf : s.versionAt path ≠ expected := Ne.symm hexp
  simp [KnowledgeStore.write, hpath, hl, hconf]

/-- Witness for C1: a stale expected version 1 against a fresh store at path
`/a` (current version 0) is rejected with a conflict. -/
theorem write_stale_version_conflict_witness :
    (emptyStore.write "/a" "x" (some 1) 0).2.documents = emptyStore.documents ∧
    (emptyStore.write "/a" "x" (some 1) 0).1.success = false ∧
    (emptyStore.write "/a" "x" (some 1) 0).1.errorCode = some StoreErrorCode.VERSION_CONFLICT ∧
    (emptyStore.write "/a" "x" (some 1) 0).1.errorCurrentVersion =
      some (emptyStore.versionAt "/a") ∧
    (emptyStore.write "/a" "x" (some 1) 0).1.errorExpectedVersion = some 1 :=
  write_stale_version_conflict emptyStore "/a" "x" 1 0 (by decide) (by decide) (by decide)

/-! ## Claim C9 -/

/-- Claim C9 counterexample: the path `/a//b` contains an empty segment, so it
fails the spec's structural check of non-empty hierarchical segments, yet the
code's regex accepts it and the write succeeds with no error. -/
theorem write_empty_segment_accepted_counterexample :
    specHierarchicalPath "/a//b" = false ∧
    isValidPath "/a//b" = true ∧
    (emptyStore.write "/a//b" "x" none 0).1.success = true ∧
    (emptyStore.write "/a//b" "x" none 0).1.errorCode = none := by
  decide

/-- Claim C9 (amended): `write` fails with `INVALID_PATH` exactly when the
path does not match the regex `/^\/[a-zA-Z0-9\/_-]+$/` (a leading slash
followed by at least one character among alphanumerics, slash, underscore and
hyphen); on such a failure the store is returned entirely unchanged — nothing
is stored and no event is emitted. -/
theorem write_invalid_path_characterization (s : KnowledgeStore) (path content : String)
    (expectedVersion : Option Nat) (now : Nat) :
    ((s.write path content expectedVersion now).1.errorCode = some StoreErrorCode.INVALID_PATH
      ↔ isValidPath path = false) ∧
    (isValidPath path = false → (s.write path content expectedVersion now).2 = s) := by
  by_cases hv : isValidPath path
  · have hne : (s.write path content expectedVersion now).1.errorCode ≠
        some StoreErrorCode.INVALID_PATH := by
      simp only [KnowledgeStore.write, hv, Bool.not_true, Bool.false_eq_true, if_false]
      split
      · simp
      · split
        · split
          · simp
          · simp [KnowledgeStore.commitWrite]
        · simp [KnowledgeStore.commitWrite]
    refine ⟨⟨fun h => absurd h hne, fun h => absurd h (by simp [hv])⟩, fun h => ?_⟩
    exact absurd h (by simp [hv])
  · simp [KnowledgeStore.write, hv]

/-- Witness for C9: the path `"x"` (no leading slash) fails the regex; the
write reports `INVALID_PATH` and the store is unchanged. -/
theorem write_invalid_path_characterization_witness :
    (emptyStore.write "x" "c" none 0).1.errorCode = some StoreErrorCode.INVALID_PATH ∧
    (emptyStore.write "x" "c" none 0).2 = emptyStore :=
  ⟨(write_invalid_path_characterization emptyStore "x" "c" none 0).1.mpr (by decide),
   (write_invalid_path_characterization emptyStore "x" "c" none 0).2 (by decide)⟩

/-! ## Claim C10 -/

/-- Claim C10: for every valid path and content within the size ceiling, a
write without an `expectedVersion` always succeeds, never reports a conflict,
replaces whatever document currently exists at the path, and increments the
stored version by exactly one. -/
theorem write_blind_always_succeeds (s : KnowledgeStore) (path content : String) (now : Nat)
    (hpath : isValidPath path = true)
    (hsize : content.length ≤ s.maxDocumentSize) :
    (s.write path content none now).1.success = true ∧
    (s.write path content none now).1.errorCode = none ∧
    (s.write path content none now).1.version = (s.versionAt path : Int) + 1 ∧
    (s.write path content none now).2.versionAt path = s.versionAt path + 1 ∧
    (lookupDoc (s.write path content none now).2.documents path).map VersionedDocument.content
      = some content := by
  have hl : ¬ content.length > s.maxDocumentSize := by omega
  refine ⟨?_, ?_, ?_, ?_, ?_⟩ <;>
    simp [KnowledgeStore.write, hpath, hl, KnowledgeStore.commitWrite,
      KnowledgeStore.versionAt, lookupDoc_setDoc_self]

/-- Witness for C10: a blind write over an existing version-1 document at
`/a` succeeds and bumps the stored version to 2. -/
theorem write_blind_always_succeeds_witness :
    ((emptyStore.write "/a" "x" none 0).2.write "/a" "y" none 1).1.success = true ∧
    ((emptyStore.write "/a" "x" none 0).2.write "/a" "y" none 1).1.errorCode = none ∧
    ((emptyStore.write "/a" "x" none 0).2.write "/a" "y" none 1).1.version =
      ((emptyStore.write "/a" "x" none 0).2.versionAt "/a" : Int) + 1 ∧
    ((emptyStore.write "/a" "x" none 0).2.write "/a" "y" none 1).2.versionAt "/a" =
      (emptyStore.write "/a" "x" none 0).2.versionAt "/a" + 1 ∧
    (lookupDoc ((emptyStore.write "/a" "x" none 0).2.write "/a" "y" none 1).2.documents
      "/a").map VersionedDocument.content = some "y" :=
  write_blind_always_succeeds (emptyStore.write "/a" "x" none 0).2 "/a" "y" 1
    (by decide) (by decide)

/-! ## Claim C2 -/

/-- Over any sequence of writes, the stored version at `p` advances by the
number of writes to `p` that succeed, and the versions returned by those
successful writes are consecutive starting just above the initial version. -/
theorem runWrites_spec (ops : List WriteOp) :
    ∀ (s : KnowledgeStore) (p : String),
      (runWrites s ops).versionAt p = s.versionAt p + (successVersionsAt s ops p).length ∧
      successVersionsAt s ops p =
        (List.range' (s.versionAt p + 1) (successVersionsAt s ops p).length).map Int.ofNat := by
  induction ops with
  | nil => intro s p; simp [runWrites, successVersionsAt]
  | cons op rest ih =>
    intro s p
    by_cases hsucc : (s.write op.path op.content op.expectedVersion op.now).1.success = true
    · by_cases hpath : op.path = p
      · subst hpath
        obtain ⟨hver, hnew⟩ :=
          (write_step s op.path op.content op.expectedVersion op.now).1 hsucc
        obtain ⟨ih1, ih2⟩ := ih (s.write op.path op.content op.expectedVersion op.now).2 op.path
        rw [hnew] at ih1 ih2
        constructor
        · simp only [runWrites, successVersionsAt]
          rw [if_pos ⟨trivial, hsucc⟩, ih1, List.length_cons]
          omega
        · simp only [successVersionsAt]
          rw [if_pos ⟨trivial, hsucc⟩, List.length_cons, List.range'_succ, List.map_cons,
            ← ih2, hver]
          norm_num
      · have hpres := write_preserves_other s op.path op.content op.expectedVersion op.now p
          (fun h => hpath h.symm)
        obtain ⟨ih1, ih2⟩ := ih (s.write op.path op.content op.expectedVersion op.now).2 p
        rw [hpres] at ih1 ih2
        constructor
        · simp only [runWrites, successVersionsAt]
          rw [if_neg (fun h => hpath h.1)]
          exact ih1
        · simp only [successVersionsAt]
          rw [if_neg (fun h => hpath h.1)]
          exact ih2
    · have hfail : (s.write op.path op.content op.expectedVersion op.now).1.success = false := by
        simpa using hsucc
      have hdocs := (write_step s op.path op.content op.expectedVersion op.now).2 hfail
      have hpres : (s.write op.path op.content op.expectedVersion op.now).2.versionAt p
          = s.versionAt p := by
        simp [KnowledgeStore.versionAt, hdocs]
      obtain ⟨ih1, ih2⟩ := ih (s.write op.path op.content op.expectedVersion op.now).2 p
      rw [hpres] at ih1 ih2
      constructor
      · simp only [runWrites, successVersionsAt]
        rw [if_neg (fun h => hsucc h.2)]
        exact ih1
      · simp only [successVersionsAt]
        rw [if_neg (fun h => hsucc h.2)]
        exact ih2

/-- Claim C2 counterexample: across a sequence of store operations that
includes a `delete`, version numbers at a path are reused — the second
successful write to `/a` stores and returns version 1, not 2. -/
theorem version_reuse_after_delete_counterexample :
    (emptyStore.write "/a" "x" none 0).1.success = true ∧
    (emptyStore.write "/a" "x" none 0).1.version = 1 ∧
    (((emptyStore.write "/a" "x" none 0).2.delete "/a").2.write "/a" "y" none 1).1.success
      = true ∧
    (((emptyStore.write "/a" "x" none 0).2.delete "/a").2.write "/a" "y" none 1).1.version
      = 1 ∧
    ¬ (((emptyStore.write "/a" "x" none 0).2.delete "/a").2.write "/a" "y" none 1).1.version
      = 2 := by
  decide

/-- Claim C2 (amended): for every path, over any sequence consisting of write
operations only (no deletes, clears or snapshot restores), the N-th successful
write to that path stores and returns version N — the returned versions are
exactly 1, 2, 3, … in order, never reused, skipped or rolled back — and the
stored version at a path never decreases under writes. -/
theorem write_only_version_sequence (ops : List WriteOp) (p : String) :
    successVersionsAt emptyStore ops p =
      (List.range' 1 (successVersionsAt emptyStore ops p).length).map Int.ofNat ∧
    ∀ s : KnowledgeStore, s.versionAt p ≤ (runWrites s ops).versionAt p := by
  constructor
  · have h := (runWrites_spec ops emptyStore p).2
    simpa [KnowledgeStore.versionAt, emptyStore, lookupDoc] using h
  · intro s
    have h := (runWrites_spec ops s p).1
    omega

/-! ## Circuit breaker lemmas -/

/-- A failing `execute` from `CLOSED` invokes the function, bumps the failure
count, records the failure time, and trips to `OPEN` exactly when the new
count reaches the threshold. -/
theorem execute_closed_fail (cb : CircuitBreaker) (t : Nat)
    (h1 : cb.state = CircuitState.CLOSED) :
    (cb.execute t false).breaker =
      { cb with failures := cb.failures + 1
                lastFailure := some t
                state := if cb.failures + 1 ≥ cb.threshold then CircuitState.OPEN
                         else CircuitState.CLOSED } := by
  simp [CircuitBreaker.execute, CircuitBreaker.runWrapped, h1]

/-- Consecutive failures whose total stays strictly below the threshold leave
the breaker `CLOSED` with the failure count advanced accordingly. -/
theorem execFailures_closed_run (times : List Nat) :
    ∀ cb : CircuitBreaker, cb.state = CircuitState.CLOSED →
      cb.failures + times.length < cb.threshold →
      (execFailures cb times).state = CircuitState.CLOSED ∧
      (execFailures cb times).failures = cb.failures + times.length ∧
      (execFailures cb times).threshold = cb.threshold ∧
      (execFailures cb times).resetTimeout = cb.resetTimeout := by
  induction times with
  | nil =>
    intro cb h1 _
    simp [execFailures, h1]
  | cons u rest ih =>
    intro cb h1 h2
    have hb := execute_closed_fail cb u h1
    have hlen : cb.failures + (rest.length + 1) < cb.threshold := by
      simpa [List.length_cons] using h2
    have hlt : ¬ (cb.failures + 1 ≥ cb.threshold) := by omega
    have hstate : (cb.execute u false).breaker.state = CircuitState.CLOSED := by
      rw [hb]; simp [hlt]
    have hfails : (cb.execute u false).breaker.failures = cb.failures + 1 := by rw [hb]
    have hth : (cb.execute u false).breaker.threshold = cb.threshold := by rw [hb]
    have hrt : (cb.execute u false).breaker.resetTimeout = cb.resetTimeout := by rw [hb]
    have hrec := ih (cb.execute u false).breaker hstate
      (by rw [hfails, hth]; omega)
    simp only [execFailures]
    refine ⟨hrec.1, ?_, ?_, ?_⟩
    · rw [hrec.2.1, hfails, List.length_cons]; omega
    · rw [hrec.2.2.1, hth]
    · rw [hrec.2.2.2, hrt]

theorem execFailures_append (xs ys : List Nat) :
    ∀ cb, execFailures cb (xs ++ ys) = execFailures (execFailures cb xs) ys := by
  induction xs with
  | nil => intro cb; simp [execFailures]
  | cons x rest ih => intro cb; simp only [List.cons_append, execFailures]; exact ih _

/-- An `execute` while `OPEN` before the reset timeout has elapsed fails
immediately without invoking the wrapped function and leaves the breaker
untouched. -/
theorem execute_open_blocked (cb : CircuitBreaker) (now : Nat) (b : Bool)
    (h1 : cb.state = CircuitState.OPEN)
    (h2 : ¬ now - cb.lastFailure.getD 0 > cb.resetTimeout) :
    cb.execute now b =
      { outcome := ExecOutcome.circuitOpenError
        breaker := cb
        invoked := false
        invokedState := none } := by
  simp [CircuitBreaker.execute, h1, h2]

/-- An `execute` while `OPEN` after the reset timeout has elapsed runs the
wrapped function in the `HALF_OPEN` state. -/
theorem execute_open_elapsed (cb : CircuitBreaker) (now : Nat) (b : Bool)
    (h1 : cb.state = CircuitState.OPEN)
    (h2 : now - cb.lastFailure.getD 0 > cb.resetTimeout) :
    cb.execute now b =
      CircuitBreaker.runWrapped { cb with state := CircuitState.HALF_OPEN } now b := by
  simp [CircuitBreaker.execute, h1, h2]

/-! ## Claim C3 -/

/-- Claim C3: starting `CLOSED` with failure count 0, after exactly
`threshold` consecutive failed `execute` calls the breaker is `OPEN` (after
any fewer it is still `CLOSED`); while `OPEN`, an `execute` before
`resetTimeout` has elapsed since the last failure fails immediately without
invoking the wrapped function and changes nothing; the first `execute` after
`resetTimeout` has elapsed invokes the wrapped function exactly once, in the
`HALF_OPEN` state, and success there returns the breaker to `CLOSED` with
failure count 0, while failure there returns it to `OPEN`. -/
theorem circuit_breaker_lifecycle (th rt : Nat) (ts : List Nat) (t : Nat)
    (now1 now2 : Nat) (b : Bool)
    (hlen : ts.length + 1 = th)
    (hbefore : ¬ now1 - t > rt)
    (hafter : now2 - t > rt) :
    (execFailures (mkBreaker th rt) ts).state = CircuitState.CLOSED ∧
    (execFailures (mkBreaker th rt) (ts ++ [t])).state = CircuitState.OPEN ∧
    (execFailures (mkBreaker th rt) (ts ++ [t])).failures = th ∧
    (execFailures (mkBreaker th rt) (ts ++ [t])).lastFailure = some t ∧
    ((execFailures (mkBreaker th rt) (ts ++ [t])).execute now1 b =
      { outcome := ExecOutcome.circuitOpenError
        breaker := execFailures (mkBreaker th rt) (ts ++ [t])
        invoked := false
        invokedState := none }) ∧
    ((execFailures (mkBreaker th rt) (ts ++ [t])).execute now2 b).invoked = true ∧
    ((execFailures (mkBreaker th rt) (ts ++ [t])).execute now2 b).invokedState =
      some CircuitState.HALF_OPEN ∧
    ((execFailures (mkBreaker th rt) (ts ++ [t])).execute now2 true).breaker.state =
      CircuitState.CLOSED ∧
    ((execFailures (mkBreaker th rt) (ts ++ [t])).execute now2 true).breaker.failures = 0 ∧
    ((execFailures (mkBreaker th rt) (ts ++ [t])).execute now2 false).breaker.state =
      CircuitState.OPEN := by
  have hclosed := execFailures_closed_run ts (mkBreaker th rt) rfl
    (by simp [mkBreaker]; omega)
  obtain ⟨hst, hfl, hth, hrt⟩ := hclosed
  have happ : execFailures (mkBreaker th rt) (ts ++ [t]) =
      ((execFailures (mkBreaker th rt) ts).execute t false).breaker := by
    rw [execFailures_append]; simp [execFailures]
  have htrip := execute_closed_fail (execFailures (mkBreaker th rt) ts) t hst
  have hge : (execFailures (mkBreaker th rt) ts).failures + 1 ≥
      (execFailures (mkBreaker th rt) ts).threshold := by
    rw [hfl, hth]; simp [mkBreaker]; omega
  have hopenState : (execFailures (mkBreaker th rt) (ts ++ [t])).state =
      CircuitState.OPEN := by
    rw [happ, htrip]; simp [hge]
  have hopenFails : (execFailures (mkBreaker th rt) (ts ++ [t])).failures = th := by
    rw [happ, htrip]; simp; rw [hfl]; simp [mkBreaker]; omega
  have hopenLast : (execFailures (mkBreaker th rt) (ts ++ [t])).lastFailure = some t := by
    rw [happ, htrip]
  have hopenRt : (execFailures (mkBreaker th rt) (ts ++ [t])).resetTimeout = rt := by
    rw [happ, htrip]; simp; rw [hrt]; simp [mkBreaker]
  have hblocked := execute_open_blocked (execFailures (mkBreaker th rt) (ts ++ [t])) now1 b
    hopenState (by rw [hopenLast, hopenRt]; simpa using hbefore)
  have helapsed := fun bb => execute_open_elapsed
    (execFailures (mkBreaker th rt) (ts ++ [t])) now2 bb
    hopenState (by rw [hopenLast, hopenRt]; simpa using hafter)
  refine ⟨hst, hopenState, hopenFails, hopenLast, hblocked, ?_, ?_, ?_, ?_, ?_⟩
  · rw [helapsed b]; cases b <;> simp [CircuitBreaker.runWrapped]
  · rw [helapsed b]; cases b <;> simp [CircuitBreaker.runWrapped]
  · rw [helapsed true]; simp [CircuitBreaker.runWrapped]
  · rw [helapsed true]; simp [CircuitBreaker.runWrapped]
  · rw [helapsed false]; simp [CircuitBreaker.runWrapped]

/-- Witness for C3 at the default configuration (threshold 3, reset timeout
30000 ms): failures at times 5, 6, 7 trip the breaker; a call at time 100 is
blocked; a call at time 40000 runs in `HALF_OPEN` and, succeeding, closes the
breaker with the failure count reset. -/
theorem circuit_breaker_lifecycle_witness :
    (execFailures (mkBreaker 3 30000) [5, 6]).state = CircuitState.CLOSED ∧
    (execFailures (mkBreaker 3 30000) ([5, 6] ++ [7])).state = CircuitState.OPEN ∧
    ((execFailures (mkBreaker 3 30000) ([5, 6] ++ [7])).execute 100 true).invoked = false ∧
    ((execFailures (mkBreaker 3 30000) ([5, 6] ++ [7])).execute 40000 true).invokedState =
      some CircuitState.HALF_OPEN ∧
    ((execFailures (mkBreaker 3 30000) ([5, 6] ++ [7])).execute 40000 true).breaker.state =
      CircuitState.CLOSED ∧
    ((execFailures (mkBreaker 3 30000) ([5, 6] ++ [7])).execute 40000 true).breaker.failures
      = 0 :=
  have h := circuit_breaker_lifecycle 3 30000 [5, 6] 7 100 40000 true
    (by decide) (by decide) (by decide)
  ⟨h.1, h.2.1, by rw [h.2.2.2.2.1], h.2.2.2.2.2.2.1, h.2.2.2.2.2.2.2.1,
   h.2.2.2.2.2.2.2.2.1⟩

/-! ## Agent loop lemmas -/

theorem toolResultStep_shift (execTool : String → String → ToolResult)
    (blocks : List ContentBlock) :
    ∀ acc : List MsgBlock,
      blocks.foldl (toolResultStep execTool) acc =
        acc ++ blocks.foldl (toolResultStep execTool) [] := by
  induction blocks with
  | nil => intro acc; simp
  | cons b rest ih =>
    intro acc
    cases b with
    | text t => simpa [toolResultStep] using ih acc
    | toolUseBlock id name input =>
      simp only [List.foldl_cons, toolResultStep, List.nil_append]
      rw [ih, ih [MsgBlock.toolResultBlock id (execTool name input).data
        (!(execTool name input).success)], List.append_assoc]

/-- The dispatched tool results are empty exactly when the response had no
`tool_use` block. -/
theorem toolResultBlocks_isEmpty (execTool : String → String → ToolResult)
    (blocks : List ContentBlock) :
    (toolResultBlocks execTool blocks).isEmpty = !(blocks.any isToolUseBlock) := by
  induction blocks with
  | nil => simp [toolResultBlocks]
  | cons b rest ih =>
    cases b with
    | text t =>
      simpa [toolResultBlocks, toolResultStep, isToolUseBlock] using ih
    | toolUseBlock id name input =>
      simp only [toolResultBlocks, List.foldl_cons, toolResultStep, List.nil_append,
        List.any_cons, isToolUseBlock, Bool.true_or, Bool.not_true]
      rw [toolResultStep_shift]
      simp

/-- The model-call count of the loop is bounded by the starting count plus the
remaining fuel. -/
theorem runLoopAux_calls_le (execTool : String → String → ToolResult)
    (responses : Nat → LLMResponse) :
    ∀ (fuel : Nat) (messages : List AgentMessage) (iter calls : Nat),
      (runLoopAux execTool responses messages iter fuel calls).2 ≤ calls + fuel := by
  intro fuel
  induction fuel with
  | zero => intro messages iter calls; simp [runLoopAux]
  | succ f ihf =>
    intro messages iter calls
    simp only [runLoopAux]
    by_cases htool : (toolResultBlocks execTool (responses iter).content).isEmpty
    · rw [if_neg (by simp [htool])]
      by_cases hstop : (responses iter).stopReason = StopReason.endTurn
      · rw [if_pos hstop]; omega
      · rw [if_neg hstop]
        have := ihf (messages ++
          [{ role := "assistant",
             content := (responses iter).content.map MsgBlock.assistantBlock }])
          (iter + 1) (calls + 1)
        omega
    · rw [if_pos (by simp [htool])]
      have := ihf ((messages ++
        [{ role := "assistant",
           content := (responses iter).content.map MsgBlock.assistantBlock }]) ++
        [{ role := "user", content := toolResultBlocks execTool (responses iter).content }])
        (iter + 1) (calls + 1)
      omega

/-- If every response in the fuel window keeps the loop going (a tool call is
requested, or the stop reason is not `end_turn`), the loop exhausts its fuel
and reports `AGENT_LOOP_DETECTED`. -/
theorem runLoopAux_detect (execTool : String → String → ToolResult)
    (responses : Nat → LLMResponse) :
    ∀ (fuel iter : Nat) (messages : List AgentMessage) (calls : Nat),
      (∀ i, iter ≤ i → i < iter + fuel →
        hasToolUse (responses i) = true ∨ (responses i).stopReason ≠ StopReason.endTurn) →
      (runLoopAux execTool responses messages iter fuel calls).1 =
        LoopResult.agentLoopDetected := by
  intro fuel
  induction fuel with
  | zero => intro iter messages calls _; simp [runLoopAux]
  | succ f ihf =>
    intro iter messages calls h
    have hi := h iter (le_refl _) (by omega)
    have hnext : ∀ i, iter + 1 ≤ i → i < iter + 1 + f →
        hasToolUse (responses i) = true ∨ (responses i).stopReason ≠ StopReason.endTurn :=
      fun i h1 h2 => h i (by omega) (by omega)
    simp only [runLoopAux]
    by_cases htool : (toolResultBlocks execTool (responses iter).content).isEmpty
    · have hnotool : hasToolUse (responses iter) = false := by
        have hh := toolResultBlocks_isEmpty execTool (responses iter).content
        rw [htool] at hh
        have : (responses iter).content.any isToolUseBlock = false := by
          cases hany : (responses iter).content.any isToolUseBlock
          · rfl
          · rw [hany] at hh; exact absurd hh.symm (by simp)
        simpa [hasToolUse] using this
      have hstop : (responses iter).stopReason ≠ StopReason.endTurn := by
        rcases hi with h1 | h2
        · rw [hnotool] at h1; exact absurd h1 (by simp)
        · exact h2
      rw [if_neg (by simp [htool]), if_neg hstop]
      exact ihf (iter + 1) _ _ hnext
    · rw [if_pos (by simp [htool])]
      exact ihf (iter + 1) _ _ hnext

/-! ## Claim C4 -/

/-- Claim C4: for every sequence of model responses, `runAgentLoop` makes at
most `maxIterations` (50) language-model calls; and if no response within that
ceiling ends the loop (none is free of tool calls with stop reason
`end_turn`), the loop raises `AGENT_LOOP_DETECTED` instead of returning the
accumulated text as a successful result. -/
theorem agent_loop_bounded (execTool : String → String → ToolResult)
    (responses : Nat → LLMResponse) (initialMessages : List AgentMessage) :
    (runAgentLoop execTool responses initialMessages).2 ≤ maxIterations ∧
    ((∀ i, i < maxIterations →
        hasToolUse (responses i) = true ∨ (responses i).stopReason ≠ StopReason.endTurn) →
      (runAgentLoop execTool responses initialMessages).1 =
        LoopResult.agentLoopDetected) := by
  constructor
  · have := runLoopAux_calls_le execTool responses maxIterations initialMessages 0 0
    simpa [runAgentLoop] using this
  · intro h
    exact runLoopAux_detect execTool responses maxIterations 0 initialMessages 0
      (fun i h1 h2 => h i (by omega))

/-- Witness for C4: a model that always stops with `max_tokens` and no tool
calls never ends the turn; the loop stops after 50 calls with
`AGENT_LOOP_DETECTED`. -/
theorem agent_loop_bounded_witness :
    (runAgentLoop (fun _ _ => { success := true, data := "" })
      (fun _ => { content := [], stopReason := StopReason.maxTokens }) []).2
        ≤ maxIterations ∧
    (runAgentLoop (fun _ _ => { success := true, data := "" })
      (fun _ => { content := [], stopReason := StopReason.maxTokens }) []).1 =
        LoopResult.agentLoopDetected :=
  have h := agent_loop_bounded (fun _ _ => { success := true, data := "" })
    (fun _ => { content := [], stopReason := StopReason.maxTokens }) []
  ⟨h.1, h.2 (fun i _ => Or.inr (by decide))⟩

/-! ## Plan-coverage lemmas -/

theorem insertUnique_nodup (a : List String) (r : String) (h : a.Nodup) :
    (insertUnique a r).Nodup := by
  by_cases hmem : r ∈ a
  · simpa [insertUnique, hmem] using h
  · rw [insertUnique, if_neg hmem]
    exact h.append (List.nodup_singleton r)
      (by intro x hx hr; simp at hr; subst hr; exact hmem hx)

theorem mem_insertUnique (a : List String) (r x : String) :
    x ∈ insertUnique a r ↔ x ∈ a ∨ x = r := by
  by_cases hmem : r ∈ a <;> simp [insertUnique, hmem]
  rintro rfl
  exact hmem

theorem foldl_insertUnique_nodup (rs : List String) :
    ∀ a : List String, a.Nodup → (rs.foldl insertUnique a).Nodup := by
  induction rs with
  | nil => intro a h; simpa using h
  | cons r rest ih => intro a h; exact ih _ (insertUnique_nodup a r h)

theorem mem_foldl_insertUnique (rs : List String) :
    ∀ (a : List String) (x : String), x ∈ rs.foldl insertUnique a ↔ x ∈ a ∨ x ∈ rs := by
  induction rs with
  | nil => intro a x; simp
  | cons r rest ih =>
    intro a x
    rw [List.foldl_cons, ih, mem_insertUnique]
    simp [or_assoc]

theorem collectCovered_nodup (tasks : List PlanTask) : (collectCovered tasks).Nodup := by
  have hgen : ∀ (ts : List PlanTask) (a : List String), a.Nodup →
      (ts.foldl (fun acc task => task.coversRequirements.foldl insertUnique acc) a).Nodup := by
    intro ts
    induction ts with
    | nil => intro a h; simpa using h
    | cons t rest ih => intro a h; exact ih _ (foldl_insertUnique_nodup _ a h)
  exact hgen tasks [] (by simp)

theorem mem_collectCovered (tasks : List PlanTask) (x : String) :
    x ∈ collectCovered tasks ↔ ∃ t ∈ tasks, x ∈ t.coversRequirements := by
  have hgen : ∀ (ts : List PlanTask) (a : List String),
      x ∈ ts.foldl (fun acc task => task.coversRequirements.foldl insertUnique acc) a ↔
        x ∈ a ∨ ∃ t ∈ ts, x ∈ t.coversRequirements := by
    intro ts
    induction ts with
    | nil => intro a; simp
    | cons t rest ih =>
      intro a
      rw [List.foldl_cons, ih, mem_foldl_insertUnique]
      simp [or_assoc]
  simpa using hgen tasks []

/-! ## Claim C5 -/

/-- Claim C5 counterexample: a requirements document with two requirements
sharing the id `a` (so R = 2) and a plan covering the single distinct id `a`
(so C = 1 ≤ R, and every covered id is a requirement id): the claim requires
`isComplete == (C == R) == false`, but the code reports `isComplete = true`
because every requirement's id is covered. -/
theorem validatePlanCoverage_duplicate_id_counterexample :
    collectCovered [⟨["a"]⟩] = ["a"] ∧
    reqIds ⟨[⟨"a"⟩, ⟨"a"⟩], []⟩ = ["a", "a"] ∧
    (validatePlanCoverage ⟨[⟨"a"⟩, ⟨"a"⟩], []⟩ ⟨[⟨["a"]⟩]⟩).isComplete = true ∧
    ¬ (collectCovered [⟨["a"]⟩]).length = (reqIds ⟨[⟨"a"⟩, ⟨"a"⟩], []⟩).length := by
  decide

/-- Claim C5 (amended): for every requirements document with `R ≥ 1`
requirements whose ids are pairwise distinct, and every plan whose tasks
collectively reference `C` distinct requirement ids all of which are ids of
those requirements, `validatePlanCoverage` returns
`percentage = round(100 * C / R)`, `isComplete ↔ C = R`, and `gaps` holding
exactly the uncovered requirement ids. -/
theorem validatePlanCoverage_correct (reqs : RequirementsDoc) (plan : PlanDoc)
    (hnodup : (reqIds reqs).Nodup)
    (hpos : 0 < (reqIds reqs).length)
    (hsub : ∀ x ∈ collectCovered plan.tasks, x ∈ reqIds reqs) :
    (validatePlanCoverage reqs plan).percentage =
      jsRound (100 * ((collectCovered plan.tasks).length : ℚ) /
        ((reqIds reqs).length : ℚ)) ∧
    ((validatePlanCoverage reqs plan).isComplete = true ↔
      (collectCovered plan.tasks).length = (reqIds reqs).length) ∧
    (∀ x, x ∈ (validatePlanCoverage reqs plan).gaps ↔
      x ∈ reqIds reqs ∧ ¬ x ∈ collectCovered plan.tasks) := by
  have hlen : (reqIds reqs).length = (reqs.explicit ++ reqs.implicit).length := by
    simp [reqIds]
  have hcovnd := collectCovered_nodup plan.tasks
  have hsubperm : List.Subperm (collectCovered plan.tasks) (reqIds reqs) :=
    hcovnd.subperm hsub
  refine ⟨?_, ?_, ?_⟩
  · have hposR : (reqs.explicit ++ reqs.implicit).length > 0 := by omega
    have harith :
        (((collectCovered plan.tasks).length : ℚ) /
            ((reqs.explicit ++ reqs.implicit).length : ℚ)) * 100 =
          100 * ((collectCovered plan.tasks).length : ℚ) / ((reqIds reqs).length : ℚ) := by
      rw [hlen]; ring
    simp only [validatePlanCoverage, hposR, harith, if_true]
  · have hiff : (validatePlanCoverage reqs plan).isComplete = true ↔
        ∀ r ∈ reqs.explicit ++ reqs.implicit, r.id ∈ collectCovered plan.tasks := by
      simp only [validatePlanCoverage, List.isEmpty_iff, List.map_eq_nil_iff,
        List.filter_eq_nil_iff]
      constructor
      · intro h r hr
        have := h r hr
        simpa using this
      · intro h r hr
        simpa using h r hr
    rw [hiff]
    constructor
    · intro h
      have hids : ∀ x ∈ reqIds reqs, x ∈ collectCovered plan.tasks := by
        intro x hx
        simp only [reqIds, List.mem_map] at hx
        obtain ⟨r, hr, rfl⟩ := hx
        exact h r hr
      have hperm : List.Perm (collectCovered plan.tasks) (reqIds reqs) :=
        (List.perm_ext_iff_of_nodup hcovnd hnodup).2
          (fun x => ⟨fun hx => hsub x hx, fun hx => hids x hx⟩)
      exact hperm.length_eq
    · intro h r hr
      have hperm : List.Perm (collectCovered plan.tasks) (reqIds reqs) :=
        hsubperm.perm_of_length_le (by omega)
      have : r.id ∈ reqIds reqs := by
        simp only [reqIds, List.mem_map]
        exact ⟨r, hr, rfl⟩
      exact hperm.mem_iff.2 this
  · intro x
    simp only [validatePlanCoverage, List.mem_map, List.mem_filter, reqIds]
    constructor
    · rintro ⟨r, ⟨hr, hnc⟩, rfl⟩
      refine ⟨⟨r, hr, rfl⟩, ?_⟩
      simpa using hnc
    · rintro ⟨⟨r, hr, rfl⟩, hnc⟩
      exact ⟨r, ⟨hr, by simpa using hnc⟩, rfl⟩

/-- Witness for C5: requirements `a`, `b` with a plan covering only `a`:
percentage is round(100·1/2) = 50, the run is incomplete, and `b` is reported
as a gap. -/
theorem validatePlanCoverage_correct_witness :
    (validatePlanCoverage ⟨[⟨"a"⟩, ⟨"b"⟩], []⟩ ⟨[⟨["a"]⟩]⟩).percentage =
      jsRound (100 * ((collectCovered [⟨["a"]⟩]).length : ℚ) /
        ((reqIds ⟨[⟨"a"⟩, ⟨"b"⟩], []⟩).length : ℚ)) ∧
    ((validatePlanCoverage ⟨[⟨"a"⟩, ⟨"b"⟩], []⟩ ⟨[⟨["a"]⟩]⟩).isComplete = true ↔
      (collectCovered [⟨["a"]⟩]).length = (reqIds ⟨[⟨"a"⟩, ⟨"b"⟩], []⟩).length) ∧
    ("b" ∈ (validatePlanCoverage ⟨[⟨"a"⟩, ⟨"b"⟩], []⟩ ⟨[⟨["a"]⟩]⟩).gaps ↔
      "b" ∈ reqIds ⟨[⟨"a"⟩, ⟨"b"⟩], []⟩ ∧ ¬ "b" ∈ collectCovered [⟨["a"]⟩]) :=
  have h := validatePlanCoverage_correct ⟨[⟨"a"⟩, ⟨"b"⟩], []⟩ ⟨[⟨["a"]⟩]⟩
    (by decide) (by decide) (by decide)
  ⟨h.1, h.2.1, h.2.2 "b"⟩

/-! ## Claim C6 -/

/-- Claim C6: an authenticated, well-formed n8n callback for a task whose
stored status is already terminal (anything other than `in_progress`) returns
HTTP 200 with success and performs no side effect at all: no task update, no
provider-metadata insert, no event log, no orchestrator resume. -/
theorem n8n_duplicate_callback_noop (payload : N8nPayload) (db : List TaskRow) (task : TaskRow)
    (hreq : payload.requestId ≠ "")
    (htask : payload.taskId ≠ "")
    (hstatus : payload.status ≠ "")
    (hfound : findTask db payload.taskId payload.requestId = some task)
    (hterminal : task.status ≠ "in_progress") :
    n8nCallbackPOST true true true payload db =
      ({ httpStatus := 200, success := true }, noEffects) := by
  have hr : (payload.requestId == "") = false := beq_eq_false_iff_ne.mpr hreq
  have ht : (payload.taskId == "") = false := beq_eq_false_iff_ne.mpr htask
  have hs : (payload.status == "") = false := beq_eq_false_iff_ne.mpr hstatus
  have hterm : (task.status != "in_progress") = true := bne_iff_ne.mpr hterminal
  simp [n8nCallbackPOST, hr, ht, hs, hfound, hterm]

/-- Witness for C6: a duplicate delivery for task `t1` already `completed`
yields 200/success and the empty effect record. -/
theorem n8n_duplicate_callback_noop_witness :
    n8nCallbackPOST true true true
      { requestId := "r1", taskId := "t1", executionId := "e1", workflowId := none,
        status := "success", resultOutputUrl := none, errorCode := none,
        errorMessage := none }
      [{ id := "t1", request_id := "r1", status := "completed", task_name := "render",
         assigned_to := "n8n" }] =
      ({ httpStatus := 200, success := true }, noEffects) :=
  n8n_duplicate_callback_noop
    { requestId := "r1", taskId := "t1", executionId := "e1", workflowId := none,
      status := "success", resultOutputUrl := none, errorCode := none,
      errorMessage := none }
    [{ id := "t1", request_id := "r1", status := "completed", task_name := "render",
       assigned_to := "n8n" }]
    { id := "t1", request_id := "r1", status := "completed", task_name := "render",
      assigned_to := "n8n" }
    (by decide) (by decide) (by decide) (by decide) (by decide)

/-! ## Claim C8 -/

/-- Claim C8: whenever the phase sequence of a run exits with an error,
`Orchestrator.run` transitions the state machine to `failed`, emits the
terminal `GENERATION_FAILED` event last, and still returns a result carrying
the sandbox files produced so far and the accumulated token usage instead of
discarding them. -/
theorem orchestrator_failure_preserves_artifacts
    (tryBody : OrchState → OrchState × Option String) (s0 s2 : OrchState) (msg : String)
    (hthrow : tryBody { s0 with events := s0.events ++ [OrchEventType.GENERATION_STARTED] }
      = (s2, some msg)) :
    (orchestratorRun tryBody s0).1.success = false ∧
    (orchestratorRun tryBody s0).1.files = s2.sandboxFiles ∧
    (orchestratorRun tryBody s0).1.tokensUsed = s2.tokensUsed ∧
    (orchestratorRun tryBody s0).1.error = some msg ∧
    (orchestratorRun tryBody s0).2.phase = "failed" ∧
    (orchestratorRun tryBody s0).2.events = s2.events ++ [OrchEventType.GENERATION_FAILED] ∧
    (orchestratorRun tryBody s0).2.events.getLast? = some OrchEventType.GENERATION_FAILED := by
  simp [orchestratorRun, hthrow, transitionTo, List.getLast?_concat]

/-- Witness for C8: a phase body that writes one sandbox file, burns 42
tokens, and then throws `boom`; the failed run still reports that file and
those tokens. -/
theorem orchestrator_failure_preserves_artifacts_witness :
    (orchestratorRun
      (fun s => ({ s with sandboxFiles := [("index.html", "hi")], tokensUsed := 42 },
        some "boom"))
      { phase := "idle", events := [], sandboxFiles := [], tokensUsed := 0 }).1.success
        = false ∧
    (orchestratorRun
      (fun s => ({ s with sandboxFiles := [("index.html", "hi")], tokensUsed := 42 },
        some "boom"))
      { phase := "idle", events := [], sandboxFiles := [], tokensUsed := 0 }).1.files
        = [("index.html", "hi")] ∧
    (orchestratorRun
      (fun s => ({ s with sandboxFiles := [("index.html", "hi")], tokensUsed := 42 },
        some "boom"))
      { phase := "idle", events := [], sandboxFiles := [], tokensUsed := 0 }).1.tokensUsed
        = 42 ∧
    (orchestratorRun
      (fun s => ({ s with sandboxFiles := [("index.html", "hi")], tokensUsed := 42 },
        some "boom"))
      { phase := "idle", events := [], sandboxFiles := [], tokensUsed := 0 }).1.error
        = some "boom" ∧
    (orchestratorRun
      (fun s => ({ s with sandboxFiles := [("index.html", "hi")], tokensUsed := 42 },
        some "boom"))
      { phase := "idle", events := [], sandboxFiles := [], tokensUsed := 0 }).2.phase
        = "failed" :=
  have h := orchestrator_failure_preserves_artifacts
    (fun s => ({ s with sandboxFiles := [("index.html", "hi")], tokensUsed := 42 },
      some "boom"))
    { phase := "idle", events := [], sandboxFiles := [], tokensUsed := 0 }
    { phase := "idle", events := [OrchEventType.GENERATION_STARTED],
      sandboxFiles := [("index.html", "hi")], tokensUsed := 42 }
    "boom" rfl
  ⟨h.1, h.2.1, h.2.2.1, h.2.2.2.1, h.2.2.2.2.1⟩

/-! ## Response handler lemmas -/

/-- Once the entry is gone and the timer is cleared, every further event is a
no-op: the resolved state is absorbing. -/
theorem rhStep_resolved_fixed (qid : String) (s : RHState) (e : RHEvent)
    (h1 : s.pendingPresent = false) (h2 : s.timerArmed = false) :
    rhStep qid s e = s := by
  cases e <;> simp [rhStep, h1, h2]

theorem rhRun_resolved_fixed (qid : String) (events : List RHEvent) :
    ∀ s : RHState, s.pendingPresent = false → s.timerArmed = false →
      List.foldl (rhStep qid) s events = s := by
  induction events with
  | nil => intro s _ _; rfl
  | cons e rest ih =>
    intro s h1 h2
    rw [List.foldl_cons, rhStep_resolved_fixed qid s e h1 h2]
    exact ih s h1 h2

/-- The reachable states: either the question is still pending (timer armed,
nothing resolved) or it has been resolved exactly once (entry removed, timer
cleared). -/
theorem rhRun_invariant (qid : String) (events : List RHEvent) :
    ∀ s : RHState,
      (s.pendingPresent = true ∧ s.timerArmed = true ∧ s.resolutions = []) ∨
      (s.pendingPresent = false ∧ s.timerArmed = false ∧ s.resolutions.length = 1) →
      (List.foldl (rhStep qid) s events).pendingPresent = true ∧
        (List.foldl (rhStep qid) s events).timerArmed = true ∧
        (List.foldl (rhStep qid) s events).resolutions = [] ∨
      (List.foldl (rhStep qid) s events).pendingPresent = false ∧
        (List.foldl (rhStep qid) s events).timerArmed = false ∧
        (List.foldl (rhStep qid) s events).resolutions.length = 1 := by
  induction events with
  | nil => intro s h; simpa using h
  | cons e rest ih =>
    intro s h
    rw [List.foldl_cons]
    rcases h with ⟨h1, h2, h3⟩ | ⟨h1, h2, h3⟩
    · cases e with
      | timerFire now =>
        refine ih _ (Or.inr ?_)
        simp [rhStep, h1, h2, h3]
      | submit r opt now =>
        refine ih _ (Or.inr ?_)
        simp [rhStep, h1, h3]
    · rw [rhStep_resolved_fixed qid s e h1 h2]
      exact ih s (Or.inr ⟨h1, h2, h3⟩)

/-- A timer-fire event in the trace guarantees the question gets resolved. -/
theorem rhRun_timer_resolves (qid : String) (events : List RHEvent) :
    ∀ s : RHState,
      (s.pendingPresent = true ∧ s.timerArmed = true ∧ s.resolutions = []) ∨
      (s.pendingPresent = false ∧ s.timerArmed = false ∧ s.resolutions.length = 1) →
      (∃ now, RHEvent.timerFire now ∈ events) →
      (List.foldl (rhStep qid) s events).resolutions.length = 1 := by
  induction events with
  | nil => intro s _ h; simp at h
  | cons e rest ih =>
    intro s h hfire
    rw [List.foldl_cons]
    rcases h with ⟨h1, h2, h3⟩ | ⟨h1, h2, h3⟩
    · cases e with
      | timerFire now =>
        have hres : (rhStep qid s (RHEvent.timerFire now)).pendingPresent = false ∧
            (rhStep qid s (RHEvent.timerFire now)).timerArmed = false ∧
            (rhStep qid s (RHEvent.timerFire now)).resolutions.length = 1 := by
          simp [rhStep, h1, h2, h3]
        rw [rhRun_resolved_fixed qid rest _ hres.1 hres.2.1]
        exact hres.2.2
      | submit r opt now =>
        have hres : (rhStep qid s (RHEvent.submit r opt now)).pendingPresent = false ∧
            (rhStep qid s (RHEvent.submit r opt now)).timerArmed = false ∧
            (rhStep qid s (RHEvent.submit r opt now)).resolutions.length = 1 := by
          simp [rhStep, h1, h3]
        rw [rhRun_resolved_fixed qid rest _ hres.1 hres.2.1]
        exact hres.2.2
    · rw [rhStep_resolved_fixed qid s e h1 h2]
      rw [rhRun_resolved_fixed qid rest s h1 h2]
      exact h3

/-- Every resolution carries the question id and originates either from a
`submitResponse` event (answered: `timedOut = false`, the submitted response)
or from the timer (`timedOut = true`, empty response) in the trace. -/
theorem rhRun_provenance (qid : String) (events : List RHEvent) :
    ∀ s : RHState, ∀ r ∈ (List.foldl (rhStep qid) s events).resolutions,
      r ∈ s.resolutions ∨
      (r.questionId = qid ∧
        ((r.timedOut = false ∧
            RHEvent.submit r.response r.selectedOptionId r.timestamp ∈ events) ∨
         (r.timedOut = true ∧ r.response = "" ∧ r.selectedOptionId = none ∧
            RHEvent.timerFire r.timestamp ∈ events))) := by
  induction events with
  | nil => intro s r hr; exact Or.inl hr
  | cons e rest ih =>
    intro s r hr
    rw [List.foldl_cons] at hr
    rcases ih _ r hr with hmem | hprov
    · cases e with
      | timerFire now =>
        by_cases h2 : s.timerArmed
        · by_cases h1 : s.pendingPresent
          · simp [rhStep, h1, h2] at hmem
            rcases hmem with hold | hnew
            · exact Or.inl hold
            · refine Or.inr ⟨?_, Or.inr ?_⟩ <;> simp [hnew]
          · simp [rhStep, h1, h2] at hmem
            exact Or.inl hmem
        · simp [rhStep, h2] at hmem
          exact Or.inl hmem
      | submit resp opt now =>
        by_cases h1 : s.pendingPresent
        · simp [rhStep, h1] at hmem
          rcases hmem with hold | hnew
          · exact Or.inl hold
          · refine Or.inr ⟨?_, Or.inl ?_⟩ <;> simp [hnew]
        · simp [rhStep, h1] at hmem
          exact Or.inl hmem
    · obtain ⟨hq, hcase⟩ := hprov
      refine Or.inr ⟨hq, ?_⟩
      rcases hcase with ⟨ht, hmem⟩ | ⟨ht, hresp, hopt, hmem⟩
      · exact Or.inl ⟨ht, List.mem_cons_of_mem e hmem⟩
      · exact Or.inr ⟨ht, hresp, hopt, List.mem_cons_of_mem e hmem⟩

/-! ## Claim C7 -/

/-- Claim C7: for a registered pending question, at most one resolution ever
fires across any event trace — and exactly one once the timer event occurs
(the timer always eventually fires unless `submitResponse` already cleared
it, in which case the submit already resolved).  Whichever fires removes the
pending entry, and the waiter receives a plain result value: either the
submitted response with `timedOut = false`, or the timeout marker with
`timedOut = true` and empty response — never both, never an exception. -/
theorem response_rendezvous_exactly_one (qid : String) (events : List RHEvent) :
    (rhRun qid events).resolutions.length ≤ 1 ∧
    ((rhRun qid events).resolutions ≠ [] → (rhRun qid events).pendingPresent = false) ∧
    ((∃ now, RHEvent.timerFire now ∈ events) →
      (rhRun qid events).resolutions.length = 1) ∧
    (∀ r ∈ (rhRun qid events).resolutions,
      r.questionId = qid ∧
      ((r.timedOut = false ∧
          RHEvent.submit r.response r.selectedOptionId r.timestamp ∈ events) ∨
       (r.timedOut = true ∧ r.response = "" ∧ r.selectedOptionId = none ∧
          RHEvent.timerFire r.timestamp ∈ events))) := by
  have hinit : rhInit.pendingPresent = true ∧ rhInit.timerArmed = true ∧
      rhInit.resolutions = [] := by simp [rhInit]
  have hinv := rhRun_invariant qid events rhInit (Or.inl hinit)
  refine ⟨?_, ?_, ?_, ?_⟩
  · rcases hinv with ⟨_, _, h3⟩ | ⟨_, _, h3⟩
    · simp [rhRun, h3]
    · simp only [rhRun]; omega
  · intro hne
    rcases hinv with ⟨_, _, h3⟩ | ⟨h1, _, _⟩
    · exact absurd h3 (by simpa [rhRun] using hne)
    · simpa [rhRun] using h1
  · intro hfire
    exact rhRun_timer_resolves qid events rhInit (Or.inl hinit) hfire
  · intro r hr
    rcases rhRun_provenance qid events rhInit r hr with hmem | hprov
    · rw [hinit.2.2] at hmem
      exact absurd hmem (List.not_mem_nil r)
    · exact hprov

/-- Witness for C7: an answer arrives at time 5, the timer fires later at
time 120 — exactly one resolution, the submitted one, and the entry is gone. -/
theorem response_rendezvous_exactly_one_witness :
    (rhRun "q1" [RHEvent.submit "yes" none 5, RHEvent.timerFire 120]).resolutions.length
      = 1 ∧
    (rhRun "q1" [RHEvent.submit "yes" none 5, RHEvent.timerFire 120]).pendingPresent
      = false :=
  have h := response_rendezvous_exactly_one "q1"
    [RHEvent.submit "yes" none 5, RHEvent.timerFire 120]
  ⟨h.2.2.1 ⟨120, by decide⟩, h.2.1 (by decide)⟩
